import Mathlib

/-!
Verification of the association-rule mining core of
`analise_preferencias_streaming.py`.

The code owned by the repository is the wrapper `executar_apriori`
(src/analise_preferencias_streaming.py, lines 158-191): it calls the
frequent-itemset miner and the rule generator, returns an empty schemaless
DataFrame when no itemset is frequent, filters the rules by
`lift >= min_lift`, and sorts the survivors by lift descending.
The miner (`mlxtend.frequent_patterns.apriori`) and the rule generator
(`mlxtend.frequent_patterns.association_rules`) are library calls whose
code is not part of the repository; they are modelled here from the spec
(sections 4.1, 4.2 and 7).

Items are opaque comparable identifiers (spec section 3) and are modelled
as natural numbers.  A basket is a finite set of items, the transaction
database an ordered list of baskets, and support is exact rational
arithmetic (spec section 4.1: "support is computed as an exact rational
count divided by N").
-/

/-- An item of the catalog: an opaque identifier with equality and order. -/
abbrev Item := Nat

/-- A basket: the set of unique items of one entity. -/
abbrev Basket := Finset Item

/-- The transaction database: an ordered sequence of baskets. -/
abbrev BasketDB := List Basket

/-- Number of baskets N. -/
def numBaskets (db : BasketDB) : Nat := db.length

/-- Support of an itemset: fraction of baskets that contain it
(a basket contains an itemset iff the itemset is a subset of the basket). -/
def support (db : BasketDB) (s : Finset Item) : ℚ :=
  (db.countP (fun b => decide (s ⊆ b)) : ℚ) / (db.length : ℚ)

/-- All items occurring in some basket of the database
(the columns of the one-hot transaction DataFrame). -/
def itemUniverse (db : BasketDB) : Finset Item :=
  db.foldr (fun b acc => b ∪ acc) ∅

/-- Modelled from the spec (section 7, InvalidParameter): min_support and
min_confidence must lie in (0,1] and min_lift must be non-negative. -/
def validParams (minSup minConf minLift : ℚ) : Bool :=
  decide (0 < minSup) && decide (minSup ≤ 1) &&
  decide (0 < minConf) && decide (minConf ≤ 1) &&
  decide (0 ≤ minLift)

/-- The elements of a multiset of items, listed in increasing order. -/
def sortMS (m : Multiset Item) : List Item :=
  Quot.liftOn m (fun l => l.insertionSort (· ≤ ·)) (fun _ _ h =>
    List.eq_of_perm_of_sorted
      ((List.perm_insertionSort _ _).trans (h.trans (List.perm_insertionSort _ _).symm))
      (List.sorted_insertionSort _ _) (List.sorted_insertionSort _ _))

/-- The canonical sorted element list of an itemset (spec section 3:
itemsets are "always stored in a canonical sorted order"). -/
def sortItems (s : Finset Item) : List Item :=
  sortMS s.val

/-- All subsets of a finite set of items, enumerated as a list in the
canonical order induced by the sorted element list. -/
def subsetsList (F : Finset Item) : List (Finset Item) :=
  ((sortItems F).sublists).map List.toFinset

/-- Modelled from the spec (section 4.1, contract of `mine`, implemented in
the source by `mlxtend.frequent_patterns.apriori`, not part of the
repository): the miner "produces every item combination (itemset) whose
support (fraction of baskets containing it) meets the threshold"; the
threshold comparison is inclusive (support ≥ min_support). -/
def mine (db : BasketDB) (minSup : ℚ) : Finset Basket :=
  (itemUniverse db).powerset.filter (fun s => s.Nonempty ∧ minSup ≤ support db s)

/-- The frequent itemsets as an ordered list (the rows of the
`frequent_itemsets` DataFrame), in canonical enumeration order. -/
def freqList (db : BasketDB) (minSup : ℚ) : List (Finset Item) :=
  (subsetsList (itemUniverse db)).filter
    (fun s => decide (s.Nonempty ∧ minSup ≤ support db s))

/-- An association rule row, as in the columns of the DataFrame returned by
`association_rules`: antecedent, consequent, and the derived metrics the
claims are about. -/
structure Rule where
  antecedents : Finset Item
  consequents : Finset Item
  ruleSupport : ℚ
  confidence : ℚ
  lift : ℚ
deriving DecidableEq

/-- Modelled from the spec (section 4.2): for one frequent itemset `F` of
size ≥ 2, every non-empty proper subset `A` of `F` is an antecedent, the
consequent is `F \ A`, confidence = support(F)/support(A) and
lift = confidence/support(consequent).  The subsets are enumerated in the
canonical order of the powerset list. -/
def rulesFromItemset (supp : Finset Item → ℚ) (F : Finset Item) : List Rule :=
  ((subsetsList F).filter (fun A => decide (A.Nonempty ∧ A ≠ F))).map (fun A =>
    let conf := supp F / supp A
    ⟨A, F \ A, supp F, conf, conf / supp (F \ A)⟩)

/-- The unfiltered candidate rules: all antecedent→consequent splits of the
frequent itemsets of size ≥ 2, in enumeration order. -/
def candidateRules (freqL : List (Finset Item)) (supp : Finset Item → ℚ) :
    List Rule :=
  (freqL.filter (fun F => decide (1 < F.card))).flatMap (rulesFromItemset supp)

/-- Modelled from the spec (section 4.2, contract of `generate_rules`,
implemented in the source by `mlxtend.frequent_patterns.association_rules`
with metric "confidence", not part of the repository): enumerate all valid
splits of every frequent itemset of size ≥ 2 and retain a rule iff its
confidence meets the threshold inclusively (confidence ≥ min_confidence). -/
def association_rules (freqL : List (Finset Item)) (supp : Finset Item → ℚ)
    (minConf : ℚ) : List Rule :=
  (candidateRules freqL supp).filter (fun r => decide (minConf ≤ r.confidence))

/-- Sort key of line 188 of the source:
`sort_values` on the lift column, descending, orders by lift descending; the
source specifies no further key, so ties keep their enumeration order
(stable sort). -/
def liftDesc (r₁ r₂ : Rule) : Prop := r₂.lift ≤ r₁.lift

instance : DecidableRel liftDesc := fun r₁ r₂ => by
  unfold liftDesc; infer_instance

instance : IsTotal Rule liftDesc := ⟨fun r₁ r₂ => le_total r₂.lift r₁.lift⟩

instance : IsTrans Rule liftDesc := ⟨fun _ _ _ h₁ h₂ => le_trans h₂ h₁⟩

/-- The two result shapes of `executar_apriori`: line 179 returns a freshly
constructed `pd.DataFrame()` with no columns at all, while the rule path
returns a DataFrame carrying the rule columns (possibly with zero rows). -/
inductive ResultadoApriori where
  /-- `pd.DataFrame()` (line 179): zero rows, zero columns, no rule schema. -/
  | dataFrameVazio : ResultadoApriori
  /-- A DataFrame with the rule columns, holding the given rows. -/
  | regras : List Rule → ResultadoApriori
deriving DecidableEq

/-- Error taxonomy of spec section 7 that is surfaced to the caller. -/
inductive AprioriError where
  | invalidParameter : AprioriError
deriving DecidableEq

/-- `executar_apriori` (source lines 158-191): validates the parameters
(modelled from spec section 7: surfaced immediately, before computation
starts), mines the frequent itemsets (line 174), returns an empty
schemaless DataFrame when none exists (lines 177-179), generates rules at
the confidence threshold (line 182), filters them by `lift >= min_lift`
(line 185) and sorts by lift descending (line 188). -/
def executar_apriori (db : BasketDB) (minSup minConf minLift : ℚ) :
    Except AprioriError ResultadoApriori :=
  if ¬ validParams minSup minConf minLift then
    .error .invalidParameter
  else
    let frequent_itemsets := freqList db minSup
    if frequent_itemsets = [] then
      .ok .dataFrameVazio
    else
      let rules := association_rules frequent_itemsets (support db) minConf
      let filtered_rules := rules.filter (fun r => decide (minLift ≤ r.lift))
      .ok (.regras (filtered_rules.insertionSort liftDesc))

/-- State-passing form of `executar_apriori`: the pair (transaction
DataFrame after the call, returned value).  The source body only reads
`df_one_hot` (line 174) and never assigns into it, so the post-state is
the unchanged input. -/
def executar_apriori_mem (db : BasketDB) (minSup minConf minLift : ℚ) :
    BasketDB × Except AprioriError ResultadoApriori :=
  (db, executar_apriori db minSup minConf minLift)

deriving instance DecidableEq for Except

attribute [local semireducible] Rat.mul Rat.inv Rat.add Rat.sub

/-! ### Canonical sorted lists -/

theorem sortMS_coe (m : Multiset Item) : (↑(sortMS m) : Multiset Item) = m :=
  Quot.inductionOn m (fun _ => Quot.sound (List.perm_insertionSort _ _))

theorem sorted_sortMS (m : Multiset Item) : List.Sorted (· ≤ ·) (sortMS m) :=
  Quot.inductionOn m (fun _ => List.sorted_insertionSort _ _)

theorem mem_sortItems {s : Finset Item} {a : Item} : a ∈ sortItems s ↔ a ∈ s := by
  have h := sortMS_coe s.val
  constructor
  · intro hm
    have : a ∈ (↑(sortMS s.val) : Multiset Item) := Multiset.mem_coe.mpr hm
    rw [h] at this
    exact this
  · intro hm
    have : a ∈ (↑(sortMS s.val) : Multiset Item) := by rw [h]; exact hm
    exact Multiset.mem_coe.mp this

theorem nodup_sortItems (s : Finset Item) : (sortItems s).Nodup := by
  have h := sortMS_coe s.val
  have : (↑(sortMS s.val) : Multiset Item).Nodup := by rw [h]; exact s.nodup
  exact Multiset.coe_nodup.mp this

theorem sorted_lt_sortItems (s : Finset Item) : List.Sorted (· < ·) (sortItems s) :=
  (sorted_sortMS s.val).lt_of_le (nodup_sortItems s)

theorem toFinset_sortItems (s : Finset Item) : (sortItems s).toFinset = s := by
  ext a
  rw [List.mem_toFinset, mem_sortItems]

/-! ### Subset enumeration -/

theorem mem_subsetsList {F S : Finset Item} : S ∈ subsetsList F ↔ S ⊆ F := by
  unfold subsetsList
  rw [List.mem_map]
  constructor
  · rintro ⟨l, hl, rfl⟩
    rw [List.mem_sublists] at hl
    intro a ha
    rw [List.mem_toFinset] at ha
    exact mem_sortItems.mp (hl.subset ha)
  · intro hSF
    refine ⟨sortItems S, ?_, toFinset_sortItems S⟩
    rw [List.mem_sublists]
    haveI : IsAntisymm Item (· < ·) := ⟨fun _ _ h h' => (lt_asymm h h').elim⟩
    apply List.sublist_of_subperm_of_sorted _ (sorted_lt_sortItems S) (sorted_lt_sortItems F)
    apply (nodup_sortItems S).subperm
    intro a ha
    exact mem_sortItems.mpr (hSF (mem_sortItems.mp ha))

/-! ### Supports -/

theorem countP_le_of_imp {α : Type} (p q : α → Bool)
    (h : ∀ a, p a = true → q a = true) :
    ∀ l : List α, l.countP p ≤ l.countP q := by
  intro l
  induction l with
  | nil => simp
  | cons a t ih =>
    rw [List.countP_cons, List.countP_cons]
    have hif : (if p a then 1 else 0) ≤ (if q a then 1 else 0) := by
      by_cases hp : p a = true
      · simp [hp, h a hp]
      · simp [hp]
    exact Nat.add_le_add ih hif

theorem support_nonneg (db : BasketDB) (s : Finset Item) : 0 ≤ support db s := by
  unfold support
  apply div_nonneg
  · exact Nat.cast_nonneg _
  · exact Nat.cast_nonneg _

/-- Support monotonicity (spec section 8): a subset is supported by at
least every basket that supports the superset. -/
theorem support_mono {S T : Finset Item} (db : BasketDB) (h : S ⊆ T) :
    support db T ≤ support db S := by
  unfold support
  rcases Nat.eq_zero_or_pos db.length with h0 | hpos
  · rw [h0]
    norm_num
  · rw [div_le_div_iff_of_pos_right (by exact_mod_cast hpos : (0:ℚ) < (db.length : ℚ))]
    have := countP_le_of_imp (fun b => decide (T ⊆ b)) (fun b => decide (S ⊆ b))
      (fun b hb => decide_eq_true (le_trans h (of_decide_eq_true hb))) db
    exact_mod_cast this

/-! ### Membership characterizations of the pipeline stages -/

theorem mem_mine {db : BasketDB} {minSup : ℚ} {S : Finset Item} :
    S ∈ mine db minSup ↔
      S ⊆ itemUniverse db ∧ S.Nonempty ∧ minSup ≤ support db S := by
  unfold mine
  rw [Finset.mem_filter, Finset.mem_powerset]

theorem mem_freqList {db : BasketDB} {minSup : ℚ} {S : Finset Item} :
    S ∈ freqList db minSup ↔ S ∈ mine db minSup := by
  unfold freqList
  rw [List.mem_filter, mem_subsetsList, mem_mine, decide_eq_true_eq]

theorem mem_rulesFromItemset {supp : Finset Item → ℚ} {F : Finset Item} {r : Rule} :
    r ∈ rulesFromItemset supp F ↔
      ∃ A, A ⊆ F ∧ A.Nonempty ∧ A ≠ F ∧
        r = ⟨A, F \ A, supp F, supp F / supp A, supp F / supp A / supp (F \ A)⟩ := by
  unfold rulesFromItemset
  rw [List.mem_map]
  constructor
  · rintro ⟨A, hA, rfl⟩
    rw [List.mem_filter, mem_subsetsList, decide_eq_true_eq] at hA
    exact ⟨A, hA.1, hA.2.1, hA.2.2, rfl⟩
  · rintro ⟨A, h1, h2, h3, rfl⟩
    refine ⟨A, ?_, rfl⟩
    rw [List.mem_filter, mem_subsetsList, decide_eq_true_eq]
    exact ⟨h1, h2, h3⟩

theorem mem_candidateRules {freqL : List (Finset Item)} {supp : Finset Item → ℚ}
    {r : Rule} :
    r ∈ candidateRules freqL supp ↔
      ∃ F, F ∈ freqL ∧ 1 < F.card ∧ r ∈ rulesFromItemset supp F := by
  unfold candidateRules
  rw [List.mem_flatMap]
  constructor
  · rintro ⟨F, hF, hr⟩
    rw [List.mem_filter, decide_eq_true_eq] at hF
    exact ⟨F, hF.1, hF.2, hr⟩
  · rintro ⟨F, h1, h2, hr⟩
    refine ⟨F, ?_, hr⟩
    rw [List.mem_filter, decide_eq_true_eq]
    exact ⟨h1, h2⟩

theorem mem_association_rules {freqL : List (Finset Item)}
    {supp : Finset Item → ℚ} {minConf : ℚ} {r : Rule} :
    r ∈ association_rules freqL supp minConf ↔
      r ∈ candidateRules freqL supp ∧ minConf ≤ r.confidence := by
  unfold association_rules
  rw [List.mem_filter, decide_eq_true_eq]

/-- The ordered rule list returned on the successful rule path. -/
def pipelineRules (db : BasketDB) (minSup minConf minLift : ℚ) : List Rule :=
  ((association_rules (freqList db minSup) (support db) minConf).filter
      (fun r => decide (minLift ≤ r.lift))).insertionSort liftDesc

theorem executar_eq_ok_regras {db : BasketDB} {minSup minConf minLift : ℚ}
    {rs : List Rule} :
    executar_apriori db minSup minConf minLift = .ok (.regras rs) ↔
      validParams minSup minConf minLift = true ∧ freqList db minSup ≠ [] ∧
        rs = pipelineRules db minSup minConf minLift := by
  unfold executar_apriori pipelineRules
  by_cases hv : validParams minSup minConf minLift = true
  · rw [if_neg (not_not_intro hv)]
    by_cases hf : freqList db minSup = []
    · rw [if_pos hf]
      simp [hv, hf]
    · rw [if_neg hf]
      simp only [Except.ok.injEq, ResultadoApriori.regras.injEq, hv, hf,
        ne_eq, not_false_iff, true_and]
      exact eq_comm
  · rw [if_pos hv]
    simp [hv]

theorem executar_eq_error {db : BasketDB} {minSup minConf minLift : ℚ} :
    executar_apriori db minSup minConf minLift = .error .invalidParameter ↔
      validParams minSup minConf minLift = false := by
  unfold executar_apriori
  by_cases hv : validParams minSup minConf minLift = true
  · rw [if_neg (not_not_intro hv)]
    by_cases hf : freqList db minSup = []
    · rw [if_pos hf]
      simp [hv]
    · rw [if_neg hf]
      simp [hv]
  · rw [if_pos hv]
    simp only [Bool.not_eq_true] at hv
    simp [hv]

theorem executar_eq_ok_vazio {db : BasketDB} {minSup minConf minLift : ℚ} :
    executar_apriori db minSup minConf minLift = .ok .dataFrameVazio ↔
      validParams minSup minConf minLift = true ∧ freqList db minSup = [] := by
  unfold executar_apriori
  by_cases hv : validParams minSup minConf minLift = true
  · rw [if_neg (not_not_intro hv)]
    by_cases hf : freqList db minSup = []
    · rw [if_pos hf]
      simp [hv, hf]
    · rw [if_neg hf]
      simp [hv, hf]
  · rw [if_pos hv]
    simp [hv]

theorem freqList_nil_iff {db : BasketDB} {minSup : ℚ} :
    freqList db minSup = [] ↔ mine db minSup = ∅ := by
  rw [List.eq_nil_iff_forall_not_mem, Finset.eq_empty_iff_forall_not_mem]
  constructor
  · intro h x hx
    exact h x (mem_freqList.mpr hx)
  · intro h x hx
    exact h x (mem_freqList.mp hx)

/-! ### Concrete databases used to instantiate the claims -/

/-- The scenario database of spec section 8 with A = 0, B = 1, C = 2:
baskets [{A,B}, {A,B,C}, {A,B}, {B,C}]. -/
def dbScenario : BasketDB := [{0, 1}, {0, 1, 2}, {0, 1}, {1, 2}]

/-- The rules `executar_apriori` returns on the scenario database with
min_support = min_confidence = 1/2 and min_lift = 1. -/
def rsScenario : List Rule :=
  [⟨{0}, {1}, 3/4, 1, 1⟩, ⟨{1}, {0}, 3/4, 3/4, 1⟩,
   ⟨{1}, {2}, 1/2, 1/2, 1⟩, ⟨{2}, {1}, 1/2, 1, 1⟩]

/-- A database on which the two returned rules tie on lift but differ in
confidence: baskets [{0,1}, {0,1}, {0}]. -/
def dbTie : BasketDB := [{0, 1}, {0, 1}, {0}]

/-! ### Claims -/

/-- C1: for every basket database and parameters, the result of the core
contains no itemset whose support is strictly below min_support and no rule
whose confidence is strictly below min_confidence or whose lift is strictly
below min_lift; all three threshold comparisons are inclusive (≥), so an
itemset with support exactly min_support and a rule with confidence exactly
min_confidence or lift exactly min_lift are retained. -/
theorem claim_C1_threshold_enforcement
    (db : BasketDB) (minSup minConf minLift : ℚ) (rs : List Rule)
    (h : executar_apriori db minSup minConf minLift = .ok (.regras rs)) :
    (∀ s ∈ mine db minSup, minSup ≤ support db s) ∧
    (∀ r ∈ rs, minConf ≤ r.confidence ∧ minLift ≤ r.lift) ∧
    (∀ s, s ⊆ itemUniverse db → s.Nonempty → minSup ≤ support db s →
      s ∈ mine db minSup) ∧
    (∀ r ∈ candidateRules (freqList db minSup) (support db),
      minConf ≤ r.confidence → minLift ≤ r.lift → r ∈ rs) := by
  obtain ⟨-, -, rfl⟩ := executar_eq_ok_regras.mp h
  refine ⟨fun s hs => (mem_mine.mp hs).2.2, ?_, ?_, ?_⟩
  · intro r hr
    rw [pipelineRules, List.mem_insertionSort, List.mem_filter,
      decide_eq_true_eq] at hr
    exact ⟨(mem_association_rules.mp hr.1).2, hr.2⟩
  · intro s h1 h2 h3
    exact mem_mine.mpr ⟨h1, h2, h3⟩
  · intro r hr hconf hlift
    rw [pipelineRules, List.mem_insertionSort, List.mem_filter,
      decide_eq_true_eq]
    exact ⟨mem_association_rules.mpr ⟨hr, hconf⟩, hlift⟩

/-- C1 witness: instantiation on the scenario database. -/
theorem claim_C1_witness :
    executar_apriori dbScenario (1/2) (1/2) 1 = .ok (.regras rsScenario) ∧
    ((∀ s ∈ mine dbScenario (1/2), 1/2 ≤ support dbScenario s) ∧
     (∀ r ∈ rsScenario, 1/2 ≤ r.confidence ∧ 1 ≤ r.lift) ∧
     (∀ s, s ⊆ itemUniverse dbScenario → s.Nonempty →
        1/2 ≤ support dbScenario s → s ∈ mine dbScenario (1/2)) ∧
     (∀ r ∈ candidateRules (freqList dbScenario (1/2)) (support dbScenario),
        1/2 ≤ r.confidence → 1 ≤ r.lift → r ∈ rsScenario)) :=
  ⟨by decide,
   claim_C1_threshold_enforcement dbScenario (1/2) (1/2) 1 rsScenario (by decide)⟩

/-- Stated from the words of the spec (section 4.2, ordering/tie-break), for
comparison with the sort of the code: a pair of adjacent output rules must have
strictly decreasing lift, or equal lift and non-increasing confidence.
This is the part of the claimed order that does not depend on the
canonical string form (which only breaks ties where both lift and
confidence are equal). -/
def specClaimedOrder (r₁ r₂ : Rule) : Prop :=
  r₂.lift < r₁.lift ∨ (r₂.lift = r₁.lift ∧ r₂.confidence ≤ r₁.confidence)

instance : DecidableRel specClaimedOrder := fun r₁ r₂ => by
  unfold specClaimedOrder; infer_instance

/-- C2 counterexample: on dbTie with min_support = 1/3,
min_confidence = 1/2 and min_lift = 1 the code returns the rule
({0}→{1}, confidence 2/3, lift 1) before ({1}→{0}, confidence 1, lift 1):
equal lifts but increasing confidence, so the output is not ordered by
lift descending with ties broken by confidence descending. -/
theorem claim_C2_counterexample :
    executar_apriori dbTie (1/3) (1/2) 1 =
      .ok (.regras [⟨{0}, {1}, 2/3, 2/3, 1⟩, ⟨{1}, {0}, 2/3, 1, 1⟩]) ∧
    ¬ specClaimedOrder ⟨{0}, {1}, 2/3, 2/3, 1⟩ ⟨{1}, {0}, 2/3, 1, 1⟩ :=
  ⟨by decide, by decide⟩

/-- C2 (amended): the sequence of rules returned by the core is sorted by
lift descending only; the code applies no confidence or canonical-string
tie-break, so rules with equal lift keep their enumeration order. -/
theorem claim_C2_sorted_by_lift
    (db : BasketDB) (minSup minConf minLift : ℚ) (rs : List Rule)
    (h : executar_apriori db minSup minConf minLift = .ok (.regras rs)) :
    rs.Pairwise (fun r₁ r₂ => r₂.lift ≤ r₁.lift) := by
  obtain ⟨-, -, rfl⟩ := executar_eq_ok_regras.mp h
  exact List.sorted_insertionSort liftDesc _

/-- C2 witness: instantiation on the scenario database. -/
theorem claim_C2_witness :
    executar_apriori dbScenario (1/2) (1/2) 1 = .ok (.regras rsScenario) ∧
    rsScenario.Pairwise (fun r₁ r₂ => r₂.lift ≤ r₁.lift) :=
  ⟨by decide,
   claim_C2_sorted_by_lift dbScenario (1/2) (1/2) 1 rsScenario (by decide)⟩

/-- C3: for every rule (A, B) returned by the core, A and B are disjoint
non-empty itemsets, the confidence of the rule equals support(A ∪ B)/support(A)
(exactly, in the rational model), and its lift equals
confidence/support(B). -/
theorem claim_C3_rule_validity
    (db : BasketDB) (minSup minConf minLift : ℚ) (rs : List Rule) (r : Rule)
    (h : executar_apriori db minSup minConf minLift = .ok (.regras rs))
    (hr : r ∈ rs) :
    r.antecedents ∩ r.consequents = ∅ ∧
    r.antecedents.Nonempty ∧ r.consequents.Nonempty ∧
    r.confidence =
      support db (r.antecedents ∪ r.consequents) / support db r.antecedents ∧
    r.lift = r.confidence / support db r.consequents := by
  obtain ⟨-, -, rfl⟩ := executar_eq_ok_regras.mp h
  rw [pipelineRules, List.mem_insertionSort, List.mem_filter] at hr
  obtain ⟨F, -, -, hrF⟩ := mem_candidateRules.mp (mem_association_rules.mp hr.1).1
  obtain ⟨A, hAF, hAne, hAneF, rfl⟩ := mem_rulesFromItemset.mp hrF
  have hunion : A ∪ F \ A = F := Finset.union_sdiff_of_subset hAF
  refine ⟨Finset.inter_sdiff_self A F, hAne, ?_, ?_, rfl⟩
  · rw [Finset.sdiff_nonempty]
    intro hFA
    exact hAneF (Finset.Subset.antisymm hAF hFA)
  · show support db F / support db A =
      support db (A ∪ F \ A) / support db A
    rw [hunion]

/-- C3 witness: instantiation at the first scenario rule. -/
theorem claim_C3_witness :
    (executar_apriori dbScenario (1/2) (1/2) 1 = .ok (.regras rsScenario) ∧
      (⟨{0}, {1}, 3/4, 1, 1⟩ : Rule) ∈ rsScenario) ∧
    (({0} : Finset Item) ∩ {1} = ∅ ∧
      ({0} : Finset Item).Nonempty ∧ ({1} : Finset Item).Nonempty ∧
      (1 : ℚ) = support dbScenario ({0} ∪ {1}) / support dbScenario {0} ∧
      (1 : ℚ) = 1 / support dbScenario {1}) :=
  ⟨⟨by decide, by decide⟩,
   claim_C3_rule_validity dbScenario (1/2) (1/2) 1 rsScenario
     ⟨{0}, {1}, 3/4, 1, 1⟩ (by decide) (by decide)⟩

/-- C4 counterexample: on the scenario database with min_support = 1/2,
mining does not return exactly {A}, {B}, {C}, {A,B}: the itemset
{B,C} = {1,2} also has support 1/2 and is frequent (the rule (C→B) of the
claim itself requires it). -/
theorem claim_C4_counterexample :
    mine dbScenario (1/2) ≠ {{0}, {1}, {2}, {0, 1}} ∧
    {1, 2} ∈ mine dbScenario (1/2) :=
  ⟨by decide, by decide⟩

/-- C4 (amended): on the scenario database with min_support = 1/2 the
frequent itemsets are exactly {A}(3/4), {B}(1), {C}(1/2), {A,B}(3/4) and
additionally {B,C}(1/2); with min_confidence = 1/2 and min_lift = 1 the
returned rules include (A→B) with confidence 1 and lift 1 and (C→B) with
confidence 1 and lift 1. -/
theorem claim_C4_scenario :
    mine dbScenario (1/2) = {{0}, {1}, {2}, {0, 1}, {1, 2}} ∧
    support dbScenario {0} = 3/4 ∧ support dbScenario {1} = 1 ∧
    support dbScenario {2} = 1/2 ∧ support dbScenario {0, 1} = 3/4 ∧
    support dbScenario {1, 2} = 1/2 ∧
    executar_apriori dbScenario (1/2) (1/2) 1 = .ok (.regras rsScenario) ∧
    (⟨{0}, {1}, 3/4, 1, 1⟩ : Rule) ∈ rsScenario ∧
    (⟨{2}, {1}, 1/2, 1, 1⟩ : Rule) ∈ rsScenario := by
  refine ⟨by decide, by decide, by decide, by decide, by decide, by decide,
    by decide, by decide, by decide⟩

/-- C5: downward closure — for every basket database and min_support, and
for every frequent itemset F of size greater than 1 in the mining result,
every proper non-empty subset of F is also present in the result, and its
support is at least support(F). -/
theorem claim_C5_downward_closure
    (db : BasketDB) (minSup : ℚ) (F S : Finset Item)
    (hF : F ∈ mine db minSup) (hcard : 1 < F.card)
    (hS : S ⊂ F) (hne : S.Nonempty) :
    S ∈ mine db minSup ∧ support db F ≤ support db S := by
  obtain ⟨hFU, -, hFsup⟩ := mem_mine.mp hF
  have hmono : support db F ≤ support db S := support_mono db hS.subset
  exact ⟨mem_mine.mpr ⟨hS.subset.trans hFU, hne, le_trans hFsup hmono⟩, hmono⟩

/-- C5 witness: F = {A,B} and S = {A} on the scenario database. -/
theorem claim_C5_witness :
    ({0, 1} ∈ mine dbScenario (1/2) ∧ 1 < ({0, 1} : Finset Item).card ∧
      ({0} : Finset Item) ⊂ {0, 1} ∧ ({0} : Finset Item).Nonempty) ∧
    ({0} ∈ mine dbScenario (1/2) ∧
      support dbScenario {0, 1} ≤ support dbScenario {0}) :=
  ⟨⟨by decide, by decide, by decide, by decide⟩,
   claim_C5_downward_closure dbScenario (1/2) {0, 1} {0}
     (by decide) (by decide) (by decide) (by decide)⟩

/-- C6: if min_support or min_confidence is not in (0,1], or min_lift is
negative, the call fails with InvalidParameter before any mining
computation, producing no partial result. -/
theorem claim_C6_invalid_parameter
    (db : BasketDB) (minSup minConf minLift : ℚ)
    (h : ¬ (0 < minSup ∧ minSup ≤ 1) ∨ ¬ (0 < minConf ∧ minConf ≤ 1) ∨
      minLift < 0) :
    executar_apriori db minSup minConf minLift = .error .invalidParameter := by
  apply executar_eq_error.mpr
  rw [Bool.eq_false_iff]
  intro ht
  simp only [validParams, Bool.and_eq_true, decide_eq_true_eq] at ht
  obtain ⟨⟨⟨⟨h1, h2⟩, h3⟩, h4⟩, h5⟩ := ht
  rcases h with h | h | h
  · exact h ⟨h1, h2⟩
  · exact h ⟨h3, h4⟩
  · exact absurd h5 (not_le.mpr h)

/-- C6 witness: min_support = 2 is rejected on the scenario database. -/
theorem claim_C6_witness :
    (¬ ((0:ℚ) < 2 ∧ (2:ℚ) ≤ 1) ∨ ¬ ((0:ℚ) < 1/2 ∧ (1:ℚ)/2 ≤ 1) ∨ (1:ℚ) < 0) ∧
    executar_apriori dbScenario 2 (1/2) 1 = .error .invalidParameter :=
  ⟨by decide,
   claim_C6_invalid_parameter dbScenario 2 (1/2) 1 (by decide)⟩

/-- C7: absence of frequent patterns is never an error — with valid
parameters the call always returns normally; if no itemset is frequent it
returns the empty result, and if no itemset of size ≥ 2 is frequent, or
the confidence/lift thresholds exclude every candidate rule, it returns an
empty rule sequence. -/
theorem claim_C7_empty_not_error
    (db : BasketDB) (minSup minConf minLift : ℚ)
    (hv : validParams minSup minConf minLift = true) :
    (∃ res, executar_apriori db minSup minConf minLift = .ok res) ∧
    (mine db minSup = ∅ →
      executar_apriori db minSup minConf minLift = .ok .dataFrameVazio) ∧
    (mine db minSup ≠ ∅ → (∀ F ∈ mine db minSup, F.card ≤ 1) →
      executar_apriori db minSup minConf minLift = .ok (.regras [])) ∧
    (mine db minSup ≠ ∅ →
      (∀ r ∈ candidateRules (freqList db minSup) (support db),
        r.confidence < minConf ∨ r.lift < minLift) →
      executar_apriori db minSup minConf minLift = .ok (.regras [])) := by
  refine ⟨?_, ?_, ?_, ?_⟩
  · by_cases hf : freqList db minSup = []
    · exact ⟨.dataFrameVazio, executar_eq_ok_vazio.mpr ⟨hv, hf⟩⟩
    · exact ⟨.regras (pipelineRules db minSup minConf minLift),
        executar_eq_ok_regras.mpr ⟨hv, hf, rfl⟩⟩
  · intro hm
    exact executar_eq_ok_vazio.mpr ⟨hv, freqList_nil_iff.mpr hm⟩
  · intro hm hcards
    apply executar_eq_ok_regras.mpr
    refine ⟨hv, fun hf => hm (freqList_nil_iff.mp hf), ?_⟩
    have hcand : candidateRules (freqList db minSup) (support db) = [] := by
      unfold candidateRules
      have : (freqList db minSup).filter (fun F => decide (1 < F.card)) = [] := by
        rw [List.filter_eq_nil_iff]
        intro F hF
        simp only [decide_eq_true_eq, not_lt]
        exact hcards F (mem_freqList.mp hF)
      rw [this]
      rfl
    rw [pipelineRules, association_rules, hcand]
    rfl
  · intro hm hexcl
    apply executar_eq_ok_regras.mpr
    refine ⟨hv, fun hf => hm (freqList_nil_iff.mp hf), ?_⟩
    have hfilter :
        (association_rules (freqList db minSup) (support db) minConf).filter
          (fun r => decide (minLift ≤ r.lift)) = [] := by
      rw [List.filter_eq_nil_iff]
      intro r hr
      obtain ⟨hcand, hconf⟩ := mem_association_rules.mp hr
      rcases hexcl r hcand with hc | hl
      · exact absurd hconf (not_le.mpr hc)
      · simp only [decide_eq_true_eq, not_le]
        exact hl
    rw [pipelineRules, hfilter]
    rfl

/-- C7 witness: a single singleton basket with min_support = 1 has a
frequent itemset but no itemset of size ≥ 2, and the call returns an
empty rule sequence rather than raising. -/
theorem claim_C7_witness :
    validParams 1 (1/2) 1 = true ∧
    ((∃ res, executar_apriori [{0}] 1 (1/2) 1 = .ok res) ∧
     (mine [{0}] 1 = ∅ →
       executar_apriori [{0}] 1 (1/2) 1 = .ok .dataFrameVazio) ∧
     (mine [{0}] 1 ≠ ∅ → (∀ F ∈ mine [{0}] 1, F.card ≤ 1) →
       executar_apriori [{0}] 1 (1/2) 1 = .ok (.regras [])) ∧
     (mine [{0}] 1 ≠ ∅ →
       (∀ r ∈ candidateRules (freqList [{0}] 1) (support [{0}]),
         r.confidence < 1/2 ∨ r.lift < 1) →
       executar_apriori [{0}] 1 (1/2) 1 = .ok (.regras []))) :=
  ⟨by decide, claim_C7_empty_not_error [{0}] 1 (1/2) 1 (by decide)⟩

/-- C8: determinism — running the mine-then-generate-rules pipeline twice
on identical basket input and identical parameters yields identical
ordered output, including identical rule order. -/
theorem claim_C8_determinism
    (db₁ db₂ : BasketDB) (s₁ c₁ l₁ s₂ c₂ l₂ : ℚ)
    (hdb : db₁ = db₂) (hs : s₁ = s₂) (hc : c₁ = c₂) (hl : l₁ = l₂) :
    executar_apriori db₁ s₁ c₁ l₁ = executar_apriori db₂ s₂ c₂ l₂ := by
  rw [hdb, hs, hc, hl]

/-- C8 witness: two runs on the scenario database. -/
theorem claim_C8_witness :
    (dbScenario = dbScenario ∧ (1:ℚ)/2 = 1/2 ∧ (1:ℚ)/2 = 1/2 ∧ (1:ℚ) = 1) ∧
    executar_apriori dbScenario (1/2) (1/2) 1 =
      executar_apriori dbScenario (1/2) (1/2) 1 :=
  ⟨⟨rfl, rfl, rfl, rfl⟩,
   claim_C8_determinism dbScenario dbScenario (1/2) (1/2) 1 (1/2) (1/2) 1
     rfl rfl rfl rfl⟩

/-- C9: frame condition — a mining/rule-generation call leaves its input
unchanged: the transaction database component of the state after
`executar_apriori` is the input database (the source body only reads
`df_one_hot` and never writes to it). -/
theorem claim_C9_frame_condition
    (db : BasketDB) (minSup minConf minLift : ℚ) :
    (executar_apriori_mem db minSup minConf minLift).1 = db := rfl

/-- C10: the two empty outcomes of `executar_apriori` have different
shapes — with min_support = 2/3 on two disjoint singleton baskets no
itemset is frequent and the call returns the schemaless
`pd.DataFrame()` result, while with min_support = 1 on one singleton
basket frequent itemsets exist but no rule does, and the call returns a
zero-row result that still carries the rule schema; the two results are
distinguishable by the caller. -/
theorem claim_C10_empty_shapes :
    executar_apriori [{0}, {1}] (2/3) (1/2) 1 = .ok .dataFrameVazio ∧
    executar_apriori [{0}] 1 (1/2) 1 = .ok (.regras []) ∧
    (ResultadoApriori.dataFrameVazio ≠ .regras []) := by
  refine ⟨by decide, by decide, by decide⟩
